import Mathlib

/-!
Verification of the CrackAble security scanner (src/pages/api/extract.js)
against its natural-language specification.

The development is a shallow embedding of the JavaScript source:

* a small backtracking pattern-match model giving the semantics of the
  JavaScript regular expressions from utils/regex-rules.js, including the
  distinction between global and non-global `String.prototype.match`;
* the security scanner (`scanForSecrets`, `scanForSecurityIssues`,
  `getContext`, `getApiIssueSeverity`, `anonymizeMatch`, `truncateSnippet`),
  parameterised by the injectable rule tables;
* the browser pool (`getBrowser`, `releaseBrowser`) as a state machine;
* the request handler as a function of the request, the process-wide state
  (rate-limit table, pool) and an environment recording the outcomes of the
  effectful browser steps (launch, newPage, navigation/collection).
-/

namespace CrackAble

/-! ### JavaScript regular-expression match semantics

The rule tables are plain data (the spec treats them as injectable
configuration).  A pattern is modelled as a small syntax tree `RE`; matching
is a backtracking matcher in continuation-passing style, with the leftmost
match preferred and greedy quantifiers, as in JavaScript.  None of the
catalog patterns carries the `g` flag, so `line.match(pattern)` returns the
leftmost match followed by the capture-group values (`jsMatchNonGlobal`);
`jsMatchAll` gives the global-flag semantics (all non-overlapping
occurrences) that the spec text describes. -/

/-- Pattern syntax: literal text, a character class with a counted greedy
repetition (upper bound `none` meaning unbounded, as in `+`), a greedy
option `r?`, alternation with left preference, a capturing group, and
sequencing. -/
inductive RE where
  | lit : List Char → RE
  | cls : (Char → Bool) → Nat → Option Nat → RE
  | opt : RE → RE
  | alt : RE → RE → RE
  | grp : RE → RE
  | seq : RE → RE → RE

/-- Result of a match attempt: remaining suffix and captured groups. -/
abbrev MatchRes := Option (List Char × List String)

/-- Length of the maximal run of characters satisfying `p`. -/
def takeRunLen (p : Char → Bool) : List Char → Nat
  | [] => 0
  | c :: cs => if p c then takeRunLen p cs + 1 else 0

/-- Greedy repetition with backtracking: try consuming `n` characters, then
`n - 1`, ... down to `lo`, returning the first choice on which the
continuation `k` succeeds. -/
def greedyTry (k : List Char → MatchRes) (cs : List Char) (lo : Nat) : Nat → MatchRes
  | 0 => if lo = 0 then k cs else none
  | n + 1 =>
      if lo ≤ n + 1 then
        match k (cs.drop (n + 1)) with
        | some r => some r
        | none => greedyTry k cs lo n
      else none

/-- Backtracking matcher in continuation-passing style.  `reMatch r cs g k`
tries to match `r` at the start of `cs` with groups-so-far `g`, calling the
continuation `k` on the rest; alternatives are explored in the JavaScript
order (greedy, left-preferring). -/
def reMatch : RE → List Char → List String → (List Char → List String → MatchRes) → MatchRes
  | .lit s, cs, g, k => if s.isPrefixOf cs then k (cs.drop s.length) g else none
  | .cls p lo hi, cs, g, k =>
      let run := takeRunLen p cs
      let m := match hi with
        | some h => min run h
        | none => run
      if m < lo then none else greedyTry (fun rest => k rest g) cs lo m
  | .opt r, cs, g, k =>
      (match reMatch r cs g k with
       | some res => some res
       | none => k cs g)
  | .alt r1 r2, cs, g, k =>
      (match reMatch r1 cs g k with
       | some res => some res
       | none => reMatch r2 cs g k)
  | .grp r, cs, g, k =>
      reMatch r cs g (fun cs1 g1 => k cs1 (g1 ++ [⟨cs.take (cs.length - cs1.length)⟩]))
  | .seq r1 r2, cs, g, k => reMatch r1 cs g (fun cs1 g1 => reMatch r2 cs1 g1 k)

/-- Attempt a match exactly at the start of `cs`; on success return the
matched text, the capture groups, and the remaining suffix. -/
def execAt (r : RE) (cs : List Char) : Option (String × List String × List Char) :=
  match reMatch r cs [] (fun rest g => some (rest, g)) with
  | some (rest, g) => some (⟨cs.take (cs.length - rest.length)⟩, g, rest)
  | none => none

/-- Leftmost match: try each start position from the left, as
`RegExp.prototype.exec` does. -/
def execLeftmost : RE → List Char → Option (String × List String × List Char)
  | r, [] => execAt r []
  | r, c :: cs =>
      match execAt r (c :: cs) with
      | some res => some res
      | none => execLeftmost r cs

/-- Semantics of `line.match(re) || []` for a regex without the `g` flag:
the empty list when there is no match, otherwise the full match followed by
the capture-group values. -/
def jsMatchNonGlobal (r : RE) (line : String) : List String :=
  match execLeftmost r line.data with
  | none => []
  | some (m, groups, _) => m :: groups

/-- Helper for `jsMatchAll`, with fuel bounding the number of matches. -/
def jsMatchAllAux (r : RE) : Nat → List Char → List String
  | 0, _ => []
  | fuel + 1, cs =>
      match execLeftmost r cs with
      | none => []
      | some (m, _, rest) =>
          if m.length = 0 then m :: jsMatchAllAux r fuel (rest.drop 1)
          else m :: jsMatchAllAux r fuel rest

/-- Semantics of `line.match(re)` for a regex with the `g` flag: all
non-overlapping occurrences, scanning from the left.  This is the behaviour
the spec text ascribes to the scanner. -/
def jsMatchAll (r : RE) (line : String) : List String :=
  jsMatchAllAux r (line.length + 1) line.data

/-- A rule body: the function a rule name is paired with, giving the result
of `line.match(pattern) || []` on a line. -/
abbrev MatchFn := String → List String

/-! Character classes used by the transcribed catalog patterns. -/

/-- Class `[0-9]`. -/
def isDigitJs (c : Char) : Bool := decide ('0' ≤ c) && decide (c ≤ '9')

/-- Class `[A-Z]`. -/
def isUpperJs (c : Char) : Bool := decide ('A' ≤ c) && decide (c ≤ 'Z')

/-- Class `[a-z]`. -/
def isLowerJs (c : Char) : Bool := decide ('a' ≤ c) && decide (c ≤ 'z')

/-- Class `[a-zA-Z0-9]`. -/
def isAlnumJs (c : Char) : Bool := isLowerJs c || isUpperJs c || isDigitJs c

/-- JavaScript `\s` on the characters that can occur in our inputs. -/
def isSpaceJs (c : Char) : Bool :=
  c == ' ' || c == Char.ofNat 9 || c == Char.ofNat 10 || c == Char.ofNat 11 ||
  c == Char.ofNat 12 || c == Char.ofNat 13 || c == Char.ofNat 160 || c == Char.ofNat 65279

/-- Transcription of `KEY_PATTERNS.AWS_ACCESS_KEY`, the regex
`AKIA[0-9A-Z]{16}` (no flags). -/
def awsAccessKeyRE : RE :=
  .seq (.lit "AKIA".data) (.cls (fun c => isDigitJs c || isUpperJs c) 16 (some 16))

/-- Transcription of `KEY_PATTERNS.OPENAI_API_KEY`, the regex
`sk-(?:proj-)?[a-zA-Z0-9]{48}` (no flags). -/
def openAiKeyRE : RE :=
  .seq (.lit "sk-".data) (.seq (.opt (.lit "proj-".data)) (.cls isAlnumJs 48 (some 48)))

/-- Transcription of `KEY_PATTERNS.STRIPE_KEY`, the regex
`(?:sk|pk)_(test|live)_[0-9a-zA-Z]{24}` (no flags); note the capturing
group `(test|live)`. -/
def stripeKeyRE : RE :=
  .seq (.alt (.lit "sk".data) (.lit "pk".data))
    (.seq (.lit "_".data)
      (.seq (.grp (.alt (.lit "test".data) (.lit "live".data)))
        (.seq (.lit "_".data) (.cls isAlnumJs 24 (some 24)))))

/-- Transcription of `INSECURE_API_PATTERNS.HTTP_ENDPOINT`, the regex
`http:\/\/[^\s/"']+` (no flags). -/
def httpEndpointRE : RE :=
  .seq (.lit "http://".data)
    (.cls (fun c => !(isSpaceJs c || c == '/' || c == '"' || c == Char.ofNat 39)) 1 none)

/-! ### The security scanner -/

/-- Model of `content.split(sep)` for a one-character separator, as used by
the scanner with the newline character. -/
def jsSplitAux (sep : Char) : List Char → List Char → List String
  | [], acc => [⟨acc.reverse⟩]
  | c :: cs, acc =>
      if c = sep then (⟨acc.reverse⟩ : String) :: jsSplitAux sep cs []
      else jsSplitAux sep cs (c :: acc)

/-- The scanner line splitting, modelling the newline split of the source
blob.  As in JavaScript, the empty string splits into one empty line. -/
def jsSplitNewline (s : String) : List String := jsSplitAux (Char.ofNat 10) s.data []

/-- Shallow embedding of `getContext(lines, lineNumber, contextLines = 2)`.
Nat subtraction truncates at zero, which matches the source on every input:
it is the `Math.max(0, lineNumber - contextLines)` clamp, and for an empty
`lines` both the source and this model produce the empty string. -/
def getContext (lines : List String) (lineNumber : Nat) (contextLines : Nat) : String :=
  let start := lineNumber - contextLines
  let stop := min (lines.length - 1) (lineNumber + contextLines)
  String.intercalate "\n" ((lines.drop start).take (stop + 1 - start))

/-- A secret finding, as pushed by `scanForSecrets`; `matchStr` is the
`match` field of the source (a reserved word in Lean). -/
structure SecretFinding where
  line : Nat
  keyType : String
  matchStr : String
  context : String
deriving DecidableEq

/-- An insecure-API finding, as pushed by `scanForSecurityIssues`. -/
structure ApiFinding where
  line : Nat
  issueType : String
  matchStr : String
  context : String
  severity : String
deriving DecidableEq

/-- Shallow embedding of `getApiIssueSeverity`: the fixed severity lookup
with default severity `low`. -/
def getApiIssueSeverity (issueType : String) : String :=
  if issueType = "HTTP_ENDPOINT" then "critical"
  else if issueType = "URL_API_KEY" then "high"
  else if issueType = "BASIC_AUTH_IN_URL" then "critical"
  else if issueType = "WILD_CORS" then "medium"
  else if issueType = "DEFAULT_CREDS" then "high"
  else "low"

/-- The line loop of `scanForSecrets`: `lines.forEach((line, lineNumber) =>
for each rule, for each element of line.match(rule) skip whitelisted
matches and push a finding)`.  `i` is the current 0-based line number and
`allLines` the full line array used for context windows. -/
def scanSecretsAux (srules : List (String × MatchFn)) (wl : List (String → Bool))
    (allLines : List String) : Nat → List String → List SecretFinding
  | _, [] => []
  | i, line :: rest =>
      (srules.flatMap fun rule =>
        ((rule.2 line).filter (fun m => !(wl.any fun w => w m))).map fun m =>
          { line := i + 1, keyType := rule.1, matchStr := m,
            context := getContext allLines i 2 })
        ++ scanSecretsAux srules wl allLines (i + 1) rest

/-- Shallow embedding of `scanForSecrets(content)`, parameterised by the
injectable `KEY_PATTERNS` entries (in declaration order) and `WHITELIST`. -/
def scanForSecrets (srules : List (String × MatchFn)) (wl : List (String → Bool))
    (content : String) : List SecretFinding :=
  let lines := jsSplitNewline content
  scanSecretsAux srules wl lines 0 lines

/-- The line loop of the insecure-API half of `scanForSecurityIssues`. -/
def scanApiAux (arules : List (String × MatchFn)) (allLines : List String) :
    Nat → List String → List ApiFinding
  | _, [] => []
  | i, line :: rest =>
      (arules.flatMap fun rule =>
        (rule.2 line).map fun m =>
          { line := i + 1, issueType := rule.1, matchStr := m,
            context := getContext allLines i 2,
            severity := getApiIssueSeverity rule.1 })
        ++ scanApiAux arules allLines (i + 1) rest

/-- The scanner report returned by `scanForSecurityIssues`. -/
structure SecurityReport where
  secrets : List SecretFinding
  apiIssues : List ApiFinding
deriving DecidableEq

/-- Shallow embedding of `scanForSecurityIssues(content)`, parameterised by
the injectable `KEY_PATTERNS`, `INSECURE_API_PATTERNS` and `WHITELIST`. -/
def scanForSecurityIssues (srules arules : List (String × MatchFn))
    (wl : List (String → Bool)) (content : String) : SecurityReport :=
  let lines := jsSplitNewline content
  { secrets := scanForSecrets srules wl content,
    apiIssues := scanApiAux arules lines 0 lines }

/-! ### Report formatting -/

/-- Masking of one maximal alphanumeric run: a run of length at least 4 is
replaced by its first 3 characters followed by one `*` per remaining
character, shorter runs are kept, as in the `replace` callback of
`anonymizeMatch`. -/
def maskRun (run : List Char) : List Char :=
  if 4 ≤ run.length then run.take 3 ++ List.replicate (run.length - 3) '*' else run

/-- Single pass over the text accumulating the current alphanumeric run
(in reverse) and masking each maximal run, modelling the global replace of
`[a-zA-Z0-9]{4,}` in `anonymizeMatch`. -/
def anonRuns (cur : List Char) : List Char → List Char
  | [] => maskRun cur.reverse
  | c :: cs =>
      if isAlnumJs c then anonRuns (c :: cur) cs
      else maskRun cur.reverse ++ c :: anonRuns [] cs

/-- Shallow embedding of `anonymizeMatch`. -/
def anonymizeMatch (s : String) : String := ⟨anonRuns [] s.data⟩

/-- Shallow embedding of `truncateSnippet(text, maxLength = 40)`: text
within the budget is passed through `anonymizeMatch`, longer text is cut to
the budget and suffixed with an ellipsis. -/
def truncateSnippet (text : String) (maxLength : Nat) : String :=
  if text.length ≤ maxLength then anonymizeMatch text
  else (⟨text.data.take maxLength⟩ : String) ++ "..."

/-! ### Script harvesting: collected units and blob assembly -/

/-- Load state of an external script unit. -/
inductive ScriptStatus where
  | pending
  | loaded
  | error
deriving DecidableEq

/-- An `external` script unit as recorded by `handleRequest` and updated by
`handleResponse`: content stays `none` until the response body is read. -/
structure ExternalScript where
  url : String
  status : ScriptStatus
  content : Option String
  error : Option String
deriving DecidableEq

/-- An inline script unit as produced by `collectInlineScripts`. -/
structure InlineScript where
  type : String
  content : String
deriving DecidableEq

/-- An event-handler unit as produced by `collectEventHandlers`. -/
structure HandlerScript where
  tag : String
  event : String
  handler : String
deriving DecidableEq

/-- An eval-generated unit as produced by `collectEvalScripts`. -/
structure EvalScript where
  type : String
  content : String
deriving DecidableEq

/-- Shallow embedding of `handleRequest` for one script-type request: a
pending unit keyed by the URL is appended. -/
def handleRequest (ext : List ExternalScript) (url : String) : List ExternalScript :=
  ext ++ [{ url := url, status := .pending, content := none, error := none }]

/-- Shallow embedding of `handleResponse` for one script-type response:
the first unit with the matching URL is updated in place, to `loaded` with
the body text on a successful read and to `error` with the message when the
read fails; other units are untouched. -/
def handleResponse (ext : List ExternalScript) (url : String)
    (body : Except String String) : List ExternalScript :=
  match ext with
  | [] => []
  | s :: rest =>
      if s.url = url then
        (match body with
         | .ok text => { s with content := some text, status := .loaded }
         | .error msg => { s with status := .error, error := some msg }) :: rest
      else s :: handleResponse rest url body

/-- The return expression of `collectScripts`: loaded external contents,
inline contents, handler bodies and eval-generated contents, flattened in
that order and joined with newlines.  A loaded unit always has its content
set (`handleResponse` writes the body before the status), so the `getD`
default for a missing content is never consulted on loaded units. -/
def assembleBlob (ext : List ExternalScript) (inl : List InlineScript)
    (hnd : List HandlerScript) (dyn : List EvalScript) : String :=
  String.intercalate "\n"
    ((ext.filter (fun s => s.status == .loaded)).map (fun s => s.content.getD "null")
      ++ inl.map (fun s => s.content)
      ++ hnd.map (fun h => h.handler)
      ++ dyn.map (fun s => s.content))

/-! ### The browser pool -/

/-- Configuration constant `MAX_BROWSERS`. -/
def MAX_BROWSERS : Nat := 8

/-- Configuration constant `RATE_LIMIT_WINDOW` (milliseconds). -/
def RATE_LIMIT_WINDOW : Int := 60000

/-- A browser instance, identified by a number. -/
abbrev Browser := Nat

/-- The mutable fields of `browserPool`: the free list (`push`/`pop` at the
end), the queue of pending waiters (`push` at the end, `shift` from the
front) and the count of instantiated browsers. -/
structure PoolState where
  instances : List Browser
  pending : List Nat
  activeCount : Nat
deriving DecidableEq

/-- The pool state at process start. -/
def poolInit : PoolState := { instances := [], pending := [], activeCount := 0 }

/-- Outcome of one `getBrowser()` call. -/
inductive GetOutcome where
  | reused : Browser → GetOutcome
  | launched : Browser → GetOutcome
  | launchFailed : GetOutcome
  | queued : GetOutcome
deriving DecidableEq

/-- Shallow embedding of `browserPool.getBrowser()`.  `launchOk` records
whether `puppeteer.launch` succeeds, `newId` names the launched instance
and `waiterId` the resolver pushed when the caller is enqueued.  On a
launch failure the count is incremented and then decremented in the catch
block before the error propagates, so the state is returned unchanged. -/
def getBrowser (maxBrowsers : Nat) (st : PoolState) (launchOk : Bool)
    (newId : Browser) (waiterId : Nat) : GetOutcome × PoolState :=
  if h : st.instances ≠ [] then
    (.reused (st.instances.getLast h), { st with instances := st.instances.dropLast })
  else if st.activeCount < maxBrowsers then
    if launchOk then (.launched newId, { st with activeCount := st.activeCount + 1 })
    else (.launchFailed, st)
  else (.queued, { st with pending := st.pending ++ [waiterId] })

/-- Shallow embedding of `browserPool.releaseBrowser(browser)`: the browser
is handed to the front waiter (the longest waiting) if one is queued,
otherwise pushed on the free list.  The first component records the waiter
that received the browser, if any. -/
def releaseBrowser (st : PoolState) (b : Browser) : Option (Nat × Browser) × PoolState :=
  match st.pending with
  | w :: rest => (some (w, b), { st with pending := rest })
  | [] => (none, { st with instances := st.instances ++ [b] })

/-- One pool operation, for reasoning about interleaved scans. -/
inductive PoolOp where
  | acquire : Bool → Browser → Nat → PoolOp
  | release : Browser → PoolOp

/-- State after one pool operation. -/
def poolStep (maxBrowsers : Nat) (st : PoolState) : PoolOp → PoolState
  | .acquire ok id w => (getBrowser maxBrowsers st ok id w).2
  | .release b => (releaseBrowser st b).2

/-- State after a sequence of pool operations. -/
def runPool (maxBrowsers : Nat) (st : PoolState) (ops : List PoolOp) : PoolState :=
  ops.foldl (poolStep maxBrowsers) st

/-! ### The request handler -/

/-- The shaped secret entry of `compressedResults.secrets`: note the
snippet is the raw match. -/
structure SecretOut where
  line : Nat
  keyType : String
  snippet : String
  context : String
deriving DecidableEq

/-- The shaped insecure-API entry of `compressedResults.apiIssues`: the
snippet goes through `truncateSnippet(match, 40)`. -/
structure ApiOut where
  line : Nat
  issueType : String
  severity : String
  snippet : String
deriving DecidableEq

/-- The `metadata` block of a successful response. -/
structure Metadata where
  scannedUrl : String
  scannedAt : String
  totalSecrets : Nat
  totalApiIssues : Nat
deriving DecidableEq

/-- The body of a successful response. -/
structure ScanResponse where
  success : Bool
  secrets : List SecretOut
  apiIssues : List ApiOut
  metadata : Metadata
deriving DecidableEq

/-- A response sent by the handler: `res.json(...)` with status 200, or
`res.status(s).json({ error })`. -/
inductive HandlerResponse where
  | ok : ScanResponse → HandlerResponse
  | err : Nat → String → HandlerResponse
deriving DecidableEq

/-- The rate-limit table `rateLimitMap`: client IP to timestamp of the last
request that passed the gate. -/
def mapGet (m : List (String × Int)) (k : String) : Option Int :=
  (m.find? (fun p => p.1 == k)).map (fun p => p.2)

/-- `Map.set`: update the entry in place when the key is present, append it
otherwise. -/
def mapSet (m : List (String × Int)) (k : String) (v : Int) : List (String × Int) :=
  if m.any (fun p => p.1 == k) then m.map (fun p => if p.1 == k then (k, v) else p)
  else m ++ [(k, v)]

/-- The rate gate of the handler:
`rateLimitMap.has(ip) && now - rateLimitMap.get(ip) < RATE_LIMIT_WINDOW`. -/
def rateHit (m : List (String × Int)) (ip : String) (now : Int) : Bool :=
  match mapGet m ip with
  | some ts => decide (now - ts < RATE_LIMIT_WINDOW)
  | none => false

/-- Falsiness of `req.body.url`: missing or the empty string. -/
def jsFalsy : Option String → Bool
  | none => true
  | some s => s == ""

/-- `error.message || 'An error occurred during the scan'`. -/
def jsErrMessage (m : String) : String :=
  if m = "" then "An error occurred during the scan" else m

instance {ε α : Type} [DecidableEq ε] [DecidableEq α] : DecidableEq (Except ε α) := fun a b =>
  match a, b with
  | .ok x, .ok y => if h : x = y then .isTrue (by rw [h]) else .isFalse (by simp [h])
  | .error x, .error y => if h : x = y then .isTrue (by rw [h]) else .isFalse (by simp [h])
  | .ok _, .error _ => .isFalse (by simp)
  | .error _, .ok _ => .isFalse (by simp)

/-- Outcomes of the effectful browser steps of one request, fixed by the
environment: whether `puppeteer.launch` succeeds (and the identity of the
launched browser / of this caller as a waiter), whether `browser.newPage()`
succeeds, and the result of `collectScripts` (the assembled blob, or the
message of the navigation/idle/collection error it threw). -/
structure ScanEnv where
  launchOk : Bool
  newBrowserId : Browser
  waiterId : Nat
  newPageOk : Bool
  pageError : String
  launchError : String
  collectResult : Except String String
deriving DecidableEq

/-- Observable result of one handler run: the response (`none` when the
caller is still suspended waiting for pool capacity), the rate-limit table
and pool afterwards, which browser was acquired (if any), whether
`releaseBrowser` ran, and which waiter the browser was handed to. -/
structure HandlerResult where
  response : Option HandlerResponse
  rateMap : List (String × Int)
  pool : PoolState
  acquiredBrowser : Option Browser
  released : Bool
  handedTo : Option Nat
deriving DecidableEq

/-- The part of the handler from `browser.newPage()` on: a `newPage`
failure is caught by the outer catch without entering the inner
`try/finally`, so the browser is not released; otherwise collection (and on
success the scan and response shaping) runs and the `finally` block
releases the browser on both paths. -/
def handlerAfterAcquire (srules arules : List (String × MatchFn))
    (wl : List (String → Bool)) (env : ScanEnv) (url : String) (scannedAt : String)
    (rm : List (String × Int)) (b : Browser) (pool1 : PoolState) : HandlerResult :=
  if env.newPageOk then
    match env.collectResult with
    | .error msg =>
        let rel := releaseBrowser pool1 b
        { response := some (.err 500 (jsErrMessage msg)), rateMap := rm, pool := rel.2,
          acquiredBrowser := some b, released := true, handedTo := rel.1.map (fun p => p.1) }
    | .ok blob =>
        let report := scanForSecurityIssues srules arules wl blob
        let body : ScanResponse :=
          { success := true
            secrets := report.secrets.map fun s =>
              { line := s.line, keyType := s.keyType, snippet := s.matchStr,
                context := s.context }
            apiIssues := report.apiIssues.map fun i =>
              { line := i.line, issueType := i.issueType, severity := i.severity,
                snippet := truncateSnippet i.matchStr 40 }
            metadata :=
              { scannedUrl := url, scannedAt := scannedAt,
                totalSecrets := report.secrets.length,
                totalApiIssues := report.apiIssues.length } }
        let rel := releaseBrowser pool1 b
        { response := some (.ok body), rateMap := rm, pool := rel.2,
          acquiredBrowser := some b, released := true, handedTo := rel.1.map (fun p => p.1) }
  else
    { response := some (.err 500 (jsErrMessage env.pageError)), rateMap := rm, pool := pool1,
      acquiredBrowser := some b, released := false, handedTo := none }

/-- The part of the handler inside the outer `try`: the `!url` validation,
then browser acquisition.  A launch failure propagates to the outer catch
as a 500; an enqueued caller suspends (no response yet). -/
def handlerAfterGate (srules arules : List (String × MatchFn))
    (wl : List (String → Bool)) (env : ScanEnv) (reqUrl : Option String)
    (scannedAt : String) (rm : List (String × Int)) (pool : PoolState) : HandlerResult :=
  if jsFalsy reqUrl then
    { response := some (.err 400 "URL required"), rateMap := rm, pool := pool,
      acquiredBrowser := none, released := false, handedTo := none }
  else
    match getBrowser MAX_BROWSERS pool env.launchOk env.newBrowserId env.waiterId with
    | (.reused b, pool1) =>
        handlerAfterAcquire srules arules wl env (reqUrl.getD "") scannedAt rm b pool1
    | (.launched b, pool1) =>
        handlerAfterAcquire srules arules wl env (reqUrl.getD "") scannedAt rm b pool1
    | (.launchFailed, pool1) =>
        { response := some (.err 500 (jsErrMessage env.launchError)), rateMap := rm,
          pool := pool1, acquiredBrowser := none, released := false, handedTo := none }
    | (.queued, pool1) =>
        { response := none, rateMap := rm, pool := pool1,
          acquiredBrowser := none, released := false, handedTo := none }

/-- Shallow embedding of the exported `handler(req, res)`: the rate gate
(reject with 429 without touching the table, otherwise record `now` for
this IP before anything else), then the body validation and the scan. -/
def handler (srules arules : List (String × MatchFn)) (wl : List (String → Bool))
    (env : ScanEnv) (ip : String) (now : Int) (reqUrl : Option String)
    (scannedAt : String) (rm : List (String × Int)) (pool : PoolState) : HandlerResult :=
  if rateHit rm ip now then
    { response := some (.err 429 "Too many requests. Please wait 1 minute between scans."),
      rateMap := rm, pool := pool, acquiredBrowser := none, released := false,
      handedTo := none }
  else
    handlerAfterGate srules arules wl env reqUrl scannedAt (mapSet rm ip now) pool

/-! ### Pool lemmas -/

lemma getBrowser_activeCount_le {maxB : Nat} {st : PoolState} (ok : Bool) (id : Browser)
    (w : Nat) (h : st.activeCount ≤ maxB) :
    ((getBrowser maxB st ok id w).2).activeCount ≤ maxB := by
  unfold getBrowser
  split
  · exact h
  · split
    · split
      · simp only []
        next hlt _ => omega
      · exact h
    · exact h

lemma releaseBrowser_activeCount (st : PoolState) (b : Browser) :
    ((releaseBrowser st b).2).activeCount = st.activeCount := by
  unfold releaseBrowser
  cases st.pending <;> rfl

lemma runPool_activeCount_le (maxB : Nat) (ops : List PoolOp) :
    ∀ st : PoolState, st.activeCount ≤ maxB → (runPool maxB st ops).activeCount ≤ maxB := by
  induction ops with
  | nil => intro st h; exact h
  | cons op rest ih =>
      intro st h
      cases op with
      | acquire ok id w =>
          exact ih _ (getBrowser_activeCount_le ok id w h)
      | release b =>
          refine ih _ ?_
          rw [show poolStep maxB st (.release b) = (releaseBrowser st b).2 from rfl,
            releaseBrowser_activeCount]
          exact h

lemma getBrowser_reused {maxB : Nat} {st : PoolState} (ok : Bool) (id : Browser) (w : Nat)
    (h : st.instances ≠ []) :
    getBrowser maxB st ok id w
      = (.reused (st.instances.getLast h), { st with instances := st.instances.dropLast }) := by
  unfold getBrowser
  rw [dif_pos h]

lemma getBrowser_launched {maxB : Nat} {st : PoolState} (id : Browser) (w : Nat)
    (hi : st.instances = []) (hlt : st.activeCount < maxB) :
    getBrowser maxB st true id w
      = (.launched id, { st with activeCount := st.activeCount + 1 }) := by
  unfold getBrowser
  rw [dif_neg (by simp [hi]), if_pos hlt, if_pos rfl]

lemma getBrowser_launchFailed {maxB : Nat} {st : PoolState} (id : Browser) (w : Nat)
    (hi : st.instances = []) (hlt : st.activeCount < maxB) :
    getBrowser maxB st false id w = (.launchFailed, st) := by
  unfold getBrowser
  rw [dif_neg (by simp [hi]), if_pos hlt, if_neg (by simp)]

lemma getBrowser_queued {maxB : Nat} {st : PoolState} (ok : Bool) (id : Browser) (w : Nat)
    (hi : st.instances = []) (hge : maxB ≤ st.activeCount) :
    getBrowser maxB st ok id w = (.queued, { st with pending := st.pending ++ [w] }) := by
  unfold getBrowser
  rw [dif_neg (by simp [hi]), if_neg (by omega)]

/-- C9: the session pool never holds more instantiated sessions than the
ceiling; `getBrowser` pops an idle instance when one exists, launches a new
one only below the ceiling (leaving the count unchanged when the launch
fails, the increment being undone before the error propagates), and
enqueues the caller otherwise; `releaseBrowser` hands the browser to the
front (longest-waiting) queued waiter if any, else returns it to the free
list; and with a ceiling of 1 and two concurrent scans the second
acquisition queues (never launching a second instance) until the first
release hands the instance over. -/
theorem claim9_browser_pool_spec :
    (∀ (maxB : Nat) (ops : List PoolOp), (runPool maxB poolInit ops).activeCount ≤ maxB)
    ∧ (∀ (maxB : Nat) (st : PoolState) (ok : Bool) (id : Browser) (w : Nat)
        (h : st.instances ≠ []),
        getBrowser maxB st ok id w
          = (.reused (st.instances.getLast h),
             { st with instances := st.instances.dropLast }))
    ∧ (∀ (maxB : Nat) (st : PoolState) (id : Browser) (w : Nat),
        st.instances = [] → st.activeCount < maxB →
        getBrowser maxB st true id w
          = (.launched id, { st with activeCount := st.activeCount + 1 }))
    ∧ (∀ (maxB : Nat) (st : PoolState) (id : Browser) (w : Nat),
        st.instances = [] → st.activeCount < maxB →
        getBrowser maxB st false id w = (.launchFailed, st))
    ∧ (∀ (maxB : Nat) (st : PoolState) (ok : Bool) (id : Browser) (w : Nat),
        st.instances = [] → maxB ≤ st.activeCount →
        getBrowser maxB st ok id w = (.queued, { st with pending := st.pending ++ [w] }))
    ∧ (∀ (st : PoolState) (b : Browser) (w : Nat) (rest : List Nat),
        st.pending = w :: rest → releaseBrowser st b = (some (w, b), { st with pending := rest }))
    ∧ (∀ (st : PoolState) (b : Browser),
        st.pending = [] → releaseBrowser st b = (none, { st with instances := st.instances ++ [b] }))
    ∧ (getBrowser 1 poolInit true 0 100 = (.launched 0, ⟨[], [], 1⟩)
       ∧ getBrowser 1 ⟨[], [], 1⟩ true 1 101 = (.queued, ⟨[], [101], 1⟩)
       ∧ releaseBrowser ⟨[], [101], 1⟩ 0 = (some (101, 0), ⟨[], [], 1⟩)) := by
  refine ⟨?_, ?_, ?_, ?_, ?_, ?_, ?_, ?_⟩
  · intro maxB ops
    exact runPool_activeCount_le maxB ops poolInit (Nat.zero_le maxB)
  · intro maxB st ok id w h
    exact getBrowser_reused ok id w h
  · intro maxB st id w hi hlt
    exact getBrowser_launched id w hi hlt
  · intro maxB st id w hi hlt
    exact getBrowser_launchFailed id w hi hlt
  · intro maxB st ok id w hi hge
    exact getBrowser_queued ok id w hi hge
  · intro st b w rest hp
    unfold releaseBrowser
    rw [hp]
  · intro st b hp
    unfold releaseBrowser
    rw [hp]
  · exact ⟨by decide, by decide, by decide⟩

/-- Witness for C9 at concrete inputs: a pool holding one idle instance
hands it out, and a two-operation run stays within the ceiling. -/
theorem claim9_witness :
    getBrowser 8 ⟨[5], [], 1⟩ true 9 0
      = (.reused 5, ⟨[], [], 1⟩)
    ∧ (runPool 8 poolInit [.acquire true 0 0, .release 0]).activeCount ≤ 8
    ∧ releaseBrowser ⟨[3], [], 2⟩ 4 = (none, ⟨[3, 4], [], 2⟩) := by
  refine ⟨?_, ?_, ?_⟩
  · have h := claim9_browser_pool_spec.2.1 8 ⟨[5], [], 1⟩ true 9 0 (by decide)
    simpa using h
  · exact claim9_browser_pool_spec.1 8 [.acquire true 0 0, .release 0]
  · exact claim9_browser_pool_spec.2.2.2.2.2.2.1 ⟨[3], [], 2⟩ 4 rfl

/-! ### Rate-limit table lemmas -/

lemma mapGet_map_upd {m : List (String × Int)} {k : String} {v : Int}
    (h : m.any (fun p => p.1 == k) = true) :
    mapGet (m.map (fun p => if p.1 == k then (k, v) else p)) k = some v := by
  induction m with
  | nil => simp at h
  | cons p rest ih =>
      by_cases hp : p.1 = k
      · simp [mapGet, hp]
      · have hr : rest.any (fun q => q.1 == k) = true := by simpa [hp] using h
        simpa [mapGet, hp] using ih hr

lemma mapGet_append_self {m : List (String × Int)} {k : String} {v : Int}
    (h : m.any (fun p => p.1 == k) = false) :
    mapGet (m ++ [(k, v)]) k = some v := by
  induction m with
  | nil => simp [mapGet]
  | cons p rest ih =>
      have hp : ¬ p.1 = k := by
        intro he
        simp [he] at h
      have hr : rest.any (fun q => q.1 == k) = false := by simpa [hp] using h
      simpa [mapGet, hp] using ih hr

lemma mapGet_mapSet_self (m : List (String × Int)) (k : String) (v : Int) :
    mapGet (mapSet m k v) k = some v := by
  unfold mapSet
  cases h : m.any (fun p => p.1 == k) with
  | true =>
      rw [if_pos rfl]
      exact mapGet_map_upd h
  | false =>
      rw [if_neg (by simp)]
      exact mapGet_append_self h

lemma rateHit_mapSet (m : List (String × Int)) (ip : String) (t0 t1 : Int) :
    rateHit (mapSet m ip t0) ip t1 = decide (t1 - t0 < RATE_LIMIT_WINDOW) := by
  unfold rateHit
  rw [mapGet_mapSet_self]

/-! ### Handler path lemmas -/

lemma handlerAfterAcquire_rateMap (srules arules : List (String × MatchFn))
    (wl : List (String → Bool)) (env : ScanEnv) (url sAt : String)
    (rm : List (String × Int)) (b : Browser) (pool1 : PoolState) :
    (handlerAfterAcquire srules arules wl env url sAt rm b pool1).rateMap = rm := by
  unfold handlerAfterAcquire
  split
  · split <;> rfl
  · rfl

lemma handlerAfterGate_rateMap (srules arules : List (String × MatchFn))
    (wl : List (String → Bool)) (env : ScanEnv) (reqUrl : Option String) (sAt : String)
    (rm : List (String × Int)) (pool : PoolState) :
    (handlerAfterGate srules arules wl env reqUrl sAt rm pool).rateMap = rm := by
  unfold handlerAfterGate
  split
  · rfl
  · split <;> simp [handlerAfterAcquire_rateMap]

lemma handler_rateMap_of_pass {srules arules : List (String × MatchFn)}
    {wl : List (String → Bool)} {env : ScanEnv} {ip : String} {now : Int}
    {reqUrl : Option String} {sAt : String} {rm : List (String × Int)} {pool : PoolState}
    (h : rateHit rm ip now = false) :
    (handler srules arules wl env ip now reqUrl sAt rm pool).rateMap = mapSet rm ip now := by
  unfold handler
  rw [if_neg (by simp [h])]
  exact handlerAfterGate_rateMap srules arules wl env reqUrl sAt (mapSet rm ip now) pool

lemma handler_of_hit (srules arules : List (String × MatchFn))
    (wl : List (String → Bool)) (env : ScanEnv) (ip : String) (now : Int)
    (reqUrl : Option String) (sAt : String) (rm : List (String × Int)) (pool : PoolState)
    (h : rateHit rm ip now = true) :
    handler srules arules wl env ip now reqUrl sAt rm pool
      = { response := some (.err 429 "Too many requests. Please wait 1 minute between scans."),
          rateMap := rm, pool := pool, acquiredBrowser := none, released := false,
          handedTo := none } := by
  unfold handler
  rw [if_pos h]

lemma handler_of_falsy_url (srules arules : List (String × MatchFn))
    (wl : List (String → Bool)) (env : ScanEnv) (ip : String) (now : Int)
    (reqUrl : Option String) (sAt : String) (rm : List (String × Int)) (pool : PoolState)
    (h : rateHit rm ip now = false) (hurl : jsFalsy reqUrl = true) :
    handler srules arules wl env ip now reqUrl sAt rm pool
      = { response := some (.err 400 "URL required"), rateMap := mapSet rm ip now,
          pool := pool, acquiredBrowser := none, released := false, handedTo := none } := by
  unfold handler handlerAfterGate
  rw [if_neg (by simp [h]), if_pos hurl]

/-- C8: a request that passes the rate gate records its timestamp for its
IP; a second request from the same IP within the window is rejected with
the 429 response and leaves the table unchanged; and any request from that
IP arriving once the window has elapsed since the recorded (last admitted)
request passes the gate. -/
theorem claim8_rate_limit_window (srules arules : List (String × MatchFn))
    (wl : List (String → Bool)) (env1 env2 : ScanEnv) (ip : String)
    (url1 url2 : Option String) (sAt1 sAt2 : String) (rm : List (String × Int))
    (pool1 pool2 : PoolState) (t0 t1 t2 : Int)
    (h0 : rateHit rm ip t0 = false)
    (h1 : t1 - t0 < RATE_LIMIT_WINDOW)
    (h2 : RATE_LIMIT_WINDOW ≤ t2 - t0) :
    mapGet (handler srules arules wl env1 ip t0 url1 sAt1 rm pool1).rateMap ip = some t0
    ∧ (handler srules arules wl env2 ip t1 url2 sAt2
        (handler srules arules wl env1 ip t0 url1 sAt1 rm pool1).rateMap pool2).response
      = some (.err 429 "Too many requests. Please wait 1 minute between scans.")
    ∧ (handler srules arules wl env2 ip t1 url2 sAt2
        (handler srules arules wl env1 ip t0 url1 sAt1 rm pool1).rateMap pool2).rateMap
      = (handler srules arules wl env1 ip t0 url1 sAt1 rm pool1).rateMap
    ∧ rateHit (handler srules arules wl env2 ip t1 url2 sAt2
        (handler srules arules wl env1 ip t0 url1 sAt1 rm pool1).rateMap pool2).rateMap ip t2
      = false := by
  have hm : (handler srules arules wl env1 ip t0 url1 sAt1 rm pool1).rateMap
      = mapSet rm ip t0 := handler_rateMap_of_pass h0
  have hhit : rateHit (mapSet rm ip t0) ip t1 = true := by
    rw [rateHit_mapSet]
    exact decide_eq_true h1
  have h429 := handler_of_hit srules arules wl env2 ip t1 url2 sAt2
    (mapSet rm ip t0) pool2 hhit
  refine ⟨?_, ?_, ?_, ?_⟩
  · rw [hm]
    exact mapGet_mapSet_self rm ip t0
  · rw [hm, h429]
  · rw [hm, h429]
  · rw [hm, h429]
    show rateHit (mapSet rm ip t0) ip t2 = false
    rw [rateHit_mapSet]
    exact decide_eq_false (by omega)

/-- Witness for C8 at concrete inputs: requests at times 0, 59999 and 60000
from one IP with an initially empty table. -/
theorem claim8_witness :
    (rateHit [] "1.2.3.4" 0 = false ∧ (59999 : Int) - 0 < RATE_LIMIT_WINDOW
      ∧ RATE_LIMIT_WINDOW ≤ (60000 : Int) - 0)
    ∧ (mapGet (handler [] [] [] ⟨true, 0, 100, true, "", "", .ok ""⟩ "1.2.3.4" 0
          (some "https://a.example") "t1" [] poolInit).rateMap "1.2.3.4" = some 0
      ∧ (handler [] [] [] ⟨true, 0, 100, true, "", "", .ok ""⟩ "1.2.3.4" 59999
          (some "https://a.example") "t2"
          (handler [] [] [] ⟨true, 0, 100, true, "", "", .ok ""⟩ "1.2.3.4" 0
            (some "https://a.example") "t1" [] poolInit).rateMap poolInit).response
        = some (.err 429 "Too many requests. Please wait 1 minute between scans.")
      ∧ (handler [] [] [] ⟨true, 0, 100, true, "", "", .ok ""⟩ "1.2.3.4" 59999
          (some "https://a.example") "t2"
          (handler [] [] [] ⟨true, 0, 100, true, "", "", .ok ""⟩ "1.2.3.4" 0
            (some "https://a.example") "t1" [] poolInit).rateMap poolInit).rateMap
        = (handler [] [] [] ⟨true, 0, 100, true, "", "", .ok ""⟩ "1.2.3.4" 0
            (some "https://a.example") "t1" [] poolInit).rateMap
      ∧ rateHit (handler [] [] [] ⟨true, 0, 100, true, "", "", .ok ""⟩ "1.2.3.4" 59999
          (some "https://a.example") "t2"
          (handler [] [] [] ⟨true, 0, 100, true, "", "", .ok ""⟩ "1.2.3.4" 0
            (some "https://a.example") "t1" [] poolInit).rateMap poolInit).rateMap
          "1.2.3.4" 60000 = false) :=
  ⟨⟨by decide, by decide, by decide⟩,
    claim8_rate_limit_window [] [] [] ⟨true, 0, 100, true, "", "", .ok ""⟩
      ⟨true, 0, 100, true, "", "", .ok ""⟩ "1.2.3.4" (some "https://a.example")
      (some "https://a.example") "t1" "t2" [] poolInit poolInit 0 59999 60000
      (by decide) (by decide) (by decide)⟩

/-- C10: the handler records the timestamp for the client IP before
validating the body, so a request with a missing url is answered 400 and
still consumes the rate slot: a well-formed request from the same IP within
the window is then rejected with 429. -/
theorem claim10_slot_consumed_before_validation (srules arules : List (String × MatchFn))
    (wl : List (String → Bool)) (env1 env2 : ScanEnv) (ip : String) (sAt1 sAt2 : String)
    (rm : List (String × Int)) (pool1 pool2 : PoolState) (t0 t1 : Int)
    (url2 : Option String)
    (h0 : rateHit rm ip t0 = false) (h1 : t1 - t0 < RATE_LIMIT_WINDOW) :
    (handler srules arules wl env1 ip t0 none sAt1 rm pool1).response
      = some (.err 400 "URL required")
    ∧ mapGet (handler srules arules wl env1 ip t0 none sAt1 rm pool1).rateMap ip = some t0
    ∧ (handler srules arules wl env2 ip t1 url2 sAt2
        (handler srules arules wl env1 ip t0 none sAt1 rm pool1).rateMap pool2).response
      = some (.err 429 "Too many requests. Please wait 1 minute between scans.") := by
  have h400 := handler_of_falsy_url srules arules wl env1 ip t0 none sAt1 rm pool1 h0 rfl
  have hhit : rateHit (mapSet rm ip t0) ip t1 = true := by
    rw [rateHit_mapSet]
    exact decide_eq_true h1
  refine ⟨?_, ?_, ?_⟩
  · rw [h400]
  · rw [h400]
    exact mapGet_mapSet_self rm ip t0
  · rw [h400]
    show (handler srules arules wl env2 ip t1 url2 sAt2 (mapSet rm ip t0) pool2).response = _
    rw [handler_of_hit srules arules wl env2 ip t1 url2 sAt2 (mapSet rm ip t0) pool2 hhit]

/-- Witness for C10 at concrete inputs: a url-less request at time 0, then
a well-formed request at time 30000 from the same IP. -/
theorem claim10_witness :
    (rateHit [] "5.6.7.8" 0 = false ∧ (30000 : Int) - 0 < RATE_LIMIT_WINDOW)
    ∧ ((handler [] [] [] ⟨true, 0, 100, true, "", "", .ok ""⟩ "5.6.7.8" 0 none "t1" []
          poolInit).response = some (.err 400 "URL required")
      ∧ mapGet (handler [] [] [] ⟨true, 0, 100, true, "", "", .ok ""⟩ "5.6.7.8" 0 none "t1" []
          poolInit).rateMap "5.6.7.8" = some 0
      ∧ (handler [] [] [] ⟨true, 0, 100, true, "", "", .ok ""⟩ "5.6.7.8" 30000
          (some "https://ok.example") "t2"
          (handler [] [] [] ⟨true, 0, 100, true, "", "", .ok ""⟩ "5.6.7.8" 0 none "t1" []
            poolInit).rateMap poolInit).response
        = some (.err 429 "Too many requests. Please wait 1 minute between scans.")) :=
  ⟨⟨by decide, by decide⟩,
    claim10_slot_consumed_before_validation [] [] [] ⟨true, 0, 100, true, "", "", .ok ""⟩
      ⟨true, 0, 100, true, "", "", .ok ""⟩ "5.6.7.8" "t1" "t2" [] poolInit poolInit 0 30000
      (some "https://ok.example") (by decide) (by decide)⟩

/-! ### Session cleanup (C3) and validation (C4) -/

lemma releaseBrowser_handed_or_mem (st : PoolState) (b : Browser) :
    (((releaseBrowser st b).1.map (fun p => p.1)).isSome = true)
    ∨ b ∈ ((releaseBrowser st b).2).instances := by
  unfold releaseBrowser
  cases st.pending with
  | nil =>
      right
      simp
  | cons w rest =>
      left
      rfl

lemma handlerAfterAcquire_acquiredBrowser (srules arules : List (String × MatchFn))
    (wl : List (String → Bool)) (env : ScanEnv) (url sAt : String)
    (rm : List (String × Int)) (b : Browser) (pool1 : PoolState) :
    (handlerAfterAcquire srules arules wl env url sAt rm b pool1).acquiredBrowser = some b := by
  unfold handlerAfterAcquire
  split
  · split <;> rfl
  · rfl

lemma handlerAfterAcquire_released (srules arules : List (String × MatchFn))
    (wl : List (String → Bool)) (env : ScanEnv) (url sAt : String)
    (rm : List (String × Int)) (b : Browser) (pool1 : PoolState)
    (hpage : env.newPageOk = true) :
    (handlerAfterAcquire srules arules wl env url sAt rm b pool1).released = true
    ∧ ((handlerAfterAcquire srules arules wl env url sAt rm b pool1).handedTo.isSome
        ∨ b ∈ (handlerAfterAcquire srules arules wl env url sAt rm b pool1).pool.instances) := by
  unfold handlerAfterAcquire
  rw [if_pos hpage]
  cases env.collectResult with
  | error msg =>
      exact ⟨rfl, releaseBrowser_handed_or_mem pool1 b⟩
  | ok blob =>
      exact ⟨rfl, releaseBrowser_handed_or_mem pool1 b⟩

lemma handler_eq_afterAcquire {srules arules : List (String × MatchFn)}
    {wl : List (String → Bool)} {env : ScanEnv} {ip : String} {now : Int}
    {reqUrl : Option String} {sAt : String} {rm : List (String × Int)} {pool : PoolState}
    {b : Browser}
    (hrate : rateHit rm ip now = false) (hurl : jsFalsy reqUrl = false)
    (hacq : (handler srules arules wl env ip now reqUrl sAt rm pool).acquiredBrowser = some b) :
    handler srules arules wl env ip now reqUrl sAt rm pool
      = handlerAfterAcquire srules arules wl env (reqUrl.getD "") sAt (mapSet rm ip now) b
          (getBrowser MAX_BROWSERS pool env.launchOk env.newBrowserId env.waiterId).2 := by
  unfold handler handlerAfterGate at hacq ⊢
  rw [if_neg (by simp [hrate]), if_neg (by simp [hurl])] at hacq ⊢
  rcases hG : getBrowser MAX_BROWSERS pool env.launchOk env.newBrowserId env.waiterId
    with ⟨out, pool1⟩
  cases out with
  | reused b' =>
      rw [hG] at hacq
      have hacq' : (handlerAfterAcquire srules arules wl env (reqUrl.getD "") sAt
          (mapSet rm ip now) b' pool1).acquiredBrowser = some b := hacq
      rw [handlerAfterAcquire_acquiredBrowser] at hacq'
      obtain rfl : b' = b := by injection hacq'
      rfl
  | launched b' =>
      rw [hG] at hacq
      have hacq' : (handlerAfterAcquire srules arules wl env (reqUrl.getD "") sAt
          (mapSet rm ip now) b' pool1).acquiredBrowser = some b := hacq
      rw [handlerAfterAcquire_acquiredBrowser] at hacq'
      obtain rfl : b' = b := by injection hacq'
      rfl
  | launchFailed =>
      rw [hG] at hacq
      have hacq' : (none : Option Browser) = some b := hacq
      simp at hacq'
  | queued =>
      rw [hG] at hacq
      have hacq' : (none : Option Browser) = some b := hacq
      simp at hacq'

/-- C3 (amended): on every exit path reached after `browser.newPage()`
succeeds — collection failure or scan success alike — the handler releases
the session, which is then either handed to a waiter or back on the free
list.  The page-creation failure path, excluded here, leaks the session
(see the counterexample). -/
theorem claim3_released_after_page_creation (srules arules : List (String × MatchFn))
    (wl : List (String → Bool)) (env : ScanEnv) (ip : String) (now : Int)
    (reqUrl : Option String) (sAt : String) (rm : List (String × Int)) (pool : PoolState)
    (b : Browser)
    (hrate : rateHit rm ip now = false) (hurl : jsFalsy reqUrl = false)
    (hpage : env.newPageOk = true)
    (hacq : (handler srules arules wl env ip now reqUrl sAt rm pool).acquiredBrowser = some b) :
    (handler srules arules wl env ip now reqUrl sAt rm pool).released = true
    ∧ ((handler srules arules wl env ip now reqUrl sAt rm pool).handedTo.isSome
        ∨ b ∈ (handler srules arules wl env ip now reqUrl sAt rm pool).pool.instances) := by
  rw [handler_eq_afterAcquire hrate hurl hacq]
  exact handlerAfterAcquire_released srules arules wl env (reqUrl.getD "") sAt
    (mapSet rm ip now) b _ hpage

/-- Counterexample to C3 as stated: when `browser.newPage()` fails after
acquisition, the handler answers 500 without releasing the session — the
pool ends with one instantiated browser that is neither idle nor handed to
a waiter. -/
theorem claim3_counterexample :
    handler [] [] [] ⟨true, 7, 100, false, "newPage failed", "", .ok ""⟩
      "1.2.3.4" 0 (some "https://example.com") "t" [] poolInit
    = { response := some (.err 500 "newPage failed"), rateMap := [("1.2.3.4", 0)],
        pool := ⟨[], [], 1⟩, acquiredBrowser := some 7, released := false,
        handedTo := none } := by decide

/-- Witness for C3 at concrete inputs: a collection failure after a
successful page creation still releases the browser. -/
theorem claim3_witness :
    (rateHit [] "1.2.3.4" 0 = false
      ∧ jsFalsy (some "https://example.com") = false
      ∧ (⟨true, 7, 100, true, "", "", .error "nav timeout"⟩ : ScanEnv).newPageOk = true
      ∧ (handler [] [] [] ⟨true, 7, 100, true, "", "", .error "nav timeout"⟩
          "1.2.3.4" 0 (some "https://example.com") "t" [] poolInit).acquiredBrowser = some 7)
    ∧ ((handler [] [] [] ⟨true, 7, 100, true, "", "", .error "nav timeout"⟩
          "1.2.3.4" 0 (some "https://example.com") "t" [] poolInit).released = true
      ∧ ((handler [] [] [] ⟨true, 7, 100, true, "", "", .error "nav timeout"⟩
          "1.2.3.4" 0 (some "https://example.com") "t" [] poolInit).handedTo.isSome
        ∨ 7 ∈ (handler [] [] [] ⟨true, 7, 100, true, "", "", .error "nav timeout"⟩
          "1.2.3.4" 0 (some "https://example.com") "t" [] poolInit).pool.instances)) :=
  ⟨⟨by decide, by decide, by decide, by decide⟩,
    claim3_released_after_page_creation [] [] [] ⟨true, 7, 100, true, "", "", .error "nav timeout"⟩
      "1.2.3.4" 0 (some "https://example.com") "t" [] poolInit 7
      (by decide) (by decide) (by decide) (by decide)⟩

lemma handlerAfterAcquire_response_not_400 (srules arules : List (String × MatchFn))
    (wl : List (String → Bool)) (env : ScanEnv) (url sAt : String)
    (rm : List (String × Int)) (b : Browser) (pool1 : PoolState) (m : String) :
    (handlerAfterAcquire srules arules wl env url sAt rm b pool1).response
      ≠ some (.err 400 m) := by
  unfold handlerAfterAcquire
  split
  · split <;> simp
  · simp

/-- C4 (amended): only a missing or empty `url` is rejected, with a 400
response produced before any browser work (pool untouched, no browser
acquired); a non-empty `url` string is never rejected with a 400 — there is
no syntactic URL validation, and a malformed URL only fails later inside
the scan (see the counterexample). -/
theorem claim4_url_validation :
    (∀ (srules arules : List (String × MatchFn)) (wl : List (String → Bool))
      (env : ScanEnv) (ip : String) (now : Int) (reqUrl : Option String) (sAt : String)
      (rm : List (String × Int)) (pool : PoolState),
      rateHit rm ip now = false → jsFalsy reqUrl = true →
      handler srules arules wl env ip now reqUrl sAt rm pool
        = { response := some (.err 400 "URL required"), rateMap := mapSet rm ip now,
            pool := pool, acquiredBrowser := none, released := false, handedTo := none })
    ∧ (∀ (srules arules : List (String × MatchFn)) (wl : List (String → Bool))
      (env : ScanEnv) (ip : String) (now : Int) (reqUrl : Option String) (sAt : String)
      (rm : List (String × Int)) (pool : PoolState) (m : String),
      jsFalsy reqUrl = false →
      (handler srules arules wl env ip now reqUrl sAt rm pool).response
        ≠ some (.err 400 m)) := by
  constructor
  · intro srules arules wl env ip now reqUrl sAt rm pool hrate hurl
    exact handler_of_falsy_url srules arules wl env ip now reqUrl sAt rm pool hrate hurl
  · intro srules arules wl env ip now reqUrl sAt rm pool m hurl
    unfold handler
    split
    · simp
    · unfold handlerAfterGate
      rw [if_neg (by simp [hurl])]
      rcases getBrowser MAX_BROWSERS pool env.launchOk env.newBrowserId env.waiterId
        with ⟨out, pool1⟩
      cases out with
      | reused b => exact handlerAfterAcquire_response_not_400 _ _ _ _ _ _ _ _ _ _
      | launched b => exact handlerAfterAcquire_response_not_400 _ _ _ _ _ _ _ _ _ _
      | launchFailed => simp
      | queued => simp

/-- Counterexample to C4 as stated: "notaurl" is not a syntactically valid
absolute URL, yet the request is not rejected with a 4xx response before
browser work — a browser is acquired (the count rises to 1) and the scan
fails only at navigation, surfacing as a 500. -/
theorem claim4_counterexample :
    handler [] [] [] ⟨true, 0, 100, true, "", "", .error "net::ERR_NAME_NOT_RESOLVED"⟩
      "1.2.3.4" 0 (some "notaurl") "t" [] poolInit
    = { response := some (.err 500 "net::ERR_NAME_NOT_RESOLVED"),
        rateMap := [("1.2.3.4", 0)], pool := ⟨[0], [], 1⟩,
        acquiredBrowser := some 0, released := true, handedTo := none } := by decide

/-- Witness for C4 at concrete inputs: a request with no url is answered
400 with the pool untouched. -/
theorem claim4_witness :
    (rateHit [] "4.4.4.4" 0 = false ∧ jsFalsy none = true)
    ∧ handler [] [] [] ⟨true, 0, 100, true, "", "", .ok ""⟩ "4.4.4.4" 0 none "t" [] poolInit
      = { response := some (.err 400 "URL required"), rateMap := mapSet [] "4.4.4.4" 0,
          pool := poolInit, acquiredBrowser := none, released := false, handedTo := none } :=
  ⟨⟨by decide, by decide⟩,
    claim4_url_validation.1 [] [] [] ⟨true, 0, 100, true, "", "", .ok ""⟩ "4.4.4.4" 0 none "t"
      [] poolInit (by decide) (by decide)⟩

/-! ### Empty-blob behaviour (C2) -/

lemma scanForSecrets_empty (srules : List (String × MatchFn)) (wl : List (String → Bool))
    (hsr : ∀ p ∈ srules, p.2 "" = []) :
    scanForSecrets srules wl "" = [] := by
  show scanSecretsAux srules wl [""] 0 [""] = []
  simp only [scanSecretsAux, List.append_nil]
  refine List.flatMap_eq_nil_iff.mpr ?_
  intro p hp
  rw [hsr p hp]
  rfl

lemma scanApiAux_empty (arules : List (String × MatchFn))
    (har : ∀ p ∈ arules, p.2 "" = []) :
    scanApiAux arules [""] 0 [""] = [] := by
  simp only [scanApiAux, List.append_nil]
  refine List.flatMap_eq_nil_iff.mpr ?_
  intro p hp
  rw [har p hp]
  rfl

lemma scanForSecurityIssues_empty (srules arules : List (String × MatchFn))
    (wl : List (String → Bool)) (hsr : ∀ p ∈ srules, p.2 "" = [])
    (har : ∀ p ∈ arules, p.2 "" = []) :
    scanForSecurityIssues srules arules wl "" = { secrets := [], apiIssues := [] } := by
  unfold scanForSecurityIssues
  rw [show jsSplitNewline "" = [""] from rfl]
  dsimp only
  rw [scanForSecrets_empty srules wl hsr, scanApiAux_empty arules har]

lemma handlerAfterAcquire_ok_response {srules arules : List (String × MatchFn)}
    {wl : List (String → Bool)} {env : ScanEnv} {url sAt : String}
    {rm : List (String × Int)} {b : Browser} {pool1 : PoolState} {blob : String}
    (hpage : env.newPageOk = true) (hcollect : env.collectResult = .ok blob) :
    (handlerAfterAcquire srules arules wl env url sAt rm b pool1).response
      = some (.ok
        { success := true
          secrets := (scanForSecurityIssues srules arules wl blob).secrets.map fun s =>
            { line := s.line, keyType := s.keyType, snippet := s.matchStr,
              context := s.context }
          apiIssues := (scanForSecurityIssues srules arules wl blob).apiIssues.map fun i =>
            { line := i.line, issueType := i.issueType, severity := i.severity,
              snippet := truncateSnippet i.matchStr 40 }
          metadata :=
            { scannedUrl := url, scannedAt := sAt,
              totalSecrets := (scanForSecurityIssues srules arules wl blob).secrets.length,
              totalApiIssues :=
                (scanForSecurityIssues srules arules wl blob).apiIssues.length } }) := by
  unfold handlerAfterAcquire
  rw [if_pos hpage, hcollect]

/-- C2 (amended): an empty harvested blob is not a failure.  When the rules
find nothing on an empty line — as is the case for the shipped catalog —
the handler answers with the 200 success report with zero findings; no
NoScriptContentError path exists in the code. -/
theorem claim2_empty_blob_success_report (srules arules : List (String × MatchFn))
    (wl : List (String → Bool)) (env : ScanEnv) (ip : String) (now : Int)
    (reqUrl : Option String) (sAt : String) (rm : List (String × Int)) (pool : PoolState)
    (b : Browser)
    (hrate : rateHit rm ip now = false) (hurl : jsFalsy reqUrl = false)
    (hpage : env.newPageOk = true) (hcollect : env.collectResult = .ok "")
    (hsr : ∀ p ∈ srules, p.2 "" = []) (har : ∀ p ∈ arules, p.2 "" = [])
    (hacq : (handler srules arules wl env ip now reqUrl sAt rm pool).acquiredBrowser = some b) :
    (handler srules arules wl env ip now reqUrl sAt rm pool).response
      = some (.ok
        { success := true, secrets := [], apiIssues := [],
          metadata := { scannedUrl := reqUrl.getD "", scannedAt := sAt,
                        totalSecrets := 0, totalApiIssues := 0 } }) := by
  rw [handler_eq_afterAcquire hrate hurl hacq,
    handlerAfterAcquire_ok_response hpage hcollect,
    scanForSecurityIssues_empty srules arules wl hsr har]
  rfl

/-- Counterexample to C2 as stated: a scan whose collection produced the
empty blob is answered with a successful 200 report carrying zero findings
(shown here with transcribed catalog rules), not with a NoScriptContentError
failure. -/
theorem claim2_counterexample :
    (handler
      [("OPENAI_API_KEY", jsMatchNonGlobal openAiKeyRE),
       ("AWS_ACCESS_KEY", jsMatchNonGlobal awsAccessKeyRE),
       ("STRIPE_KEY", jsMatchNonGlobal stripeKeyRE)]
      [("HTTP_ENDPOINT", jsMatchNonGlobal httpEndpointRE)] []
      ⟨true, 0, 100, true, "", "", .ok ""⟩ "9.9.9.9" 0 (some "https://empty.example")
      "2026-01-01" [] poolInit).response
    = some (.ok
        { success := true, secrets := [], apiIssues := [],
          metadata := { scannedUrl := "https://empty.example", scannedAt := "2026-01-01",
                        totalSecrets := 0, totalApiIssues := 0 } }) := by decide

/-- Witness for C2 at concrete inputs (rule tables with one transcribed
rule each). -/
theorem claim2_witness :
    (rateHit [] "7.7.7.7" 0 = false ∧ jsFalsy (some "https://e.example") = false
      ∧ (⟨true, 3, 100, true, "", "", .ok ""⟩ : ScanEnv).newPageOk = true
      ∧ (⟨true, 3, 100, true, "", "", .ok ""⟩ : ScanEnv).collectResult = .ok ""
      ∧ (∀ p ∈ [("AWS_ACCESS_KEY", jsMatchNonGlobal awsAccessKeyRE)], p.2 "" = ([] : List String))
      ∧ (∀ p ∈ [("HTTP_ENDPOINT", jsMatchNonGlobal httpEndpointRE)], p.2 "" = ([] : List String))
      ∧ (handler [("AWS_ACCESS_KEY", jsMatchNonGlobal awsAccessKeyRE)]
          [("HTTP_ENDPOINT", jsMatchNonGlobal httpEndpointRE)] []
          ⟨true, 3, 100, true, "", "", .ok ""⟩ "7.7.7.7" 0 (some "https://e.example") "t" []
          poolInit).acquiredBrowser = some 3)
    ∧ (handler [("AWS_ACCESS_KEY", jsMatchNonGlobal awsAccessKeyRE)]
        [("HTTP_ENDPOINT", jsMatchNonGlobal httpEndpointRE)] []
        ⟨true, 3, 100, true, "", "", .ok ""⟩ "7.7.7.7" 0 (some "https://e.example") "t" []
        poolInit).response
      = some (.ok
          { success := true, secrets := [], apiIssues := [],
            metadata := { scannedUrl := "https://e.example", scannedAt := "t",
                          totalSecrets := 0, totalApiIssues := 0 } }) :=
  ⟨⟨by decide, by decide, by decide, by decide, by decide, by decide, by decide⟩,
    claim2_empty_blob_success_report [("AWS_ACCESS_KEY", jsMatchNonGlobal awsAccessKeyRE)]
      [("HTTP_ENDPOINT", jsMatchNonGlobal httpEndpointRE)] []
      ⟨true, 3, 100, true, "", "", .ok ""⟩ "7.7.7.7" 0 (some "https://e.example") "t" []
      poolInit 3 (by decide) (by decide) (by decide) (by decide) (by decide) (by decide)
      (by decide)⟩

/-! ### SourceBlob assembly (C7) -/

/-- Spec-side description of the SourceBlob: the contents of the external
units that are neither pending nor error, then the inline contents, then
the handler bodies, then the eval-generated contents, the whole sequence
newline-joined in that fixed category order. -/
def specSourceBlob (ext : List ExternalScript) (inl : List InlineScript)
    (hnd : List HandlerScript) (dyn : List EvalScript) : String :=
  String.intercalate "\n"
    ((ext.filter (fun s => !(s.status == .pending || s.status == .error))).map
        (fun s => s.content.getD "null")
      ++ inl.map (fun s => s.content)
      ++ hnd.map (fun h => h.handler)
      ++ dyn.map (fun s => s.content))

/-- C7: the assembled blob is exactly the spec-side fixed-order
newline-joined concatenation in which every external unit with status
pending or error is excluded; in particular when no external unit is
loaded the blob is the same as with no external units at all. -/
theorem claim7_source_blob_assembly :
    (∀ (ext : List ExternalScript) (inl : List InlineScript) (hnd : List HandlerScript)
        (dyn : List EvalScript),
      assembleBlob ext inl hnd dyn = specSourceBlob ext inl hnd dyn)
    ∧ (∀ (ext : List ExternalScript) (inl : List InlineScript) (hnd : List HandlerScript)
        (dyn : List EvalScript),
      (∀ s ∈ ext, s.status = .pending ∨ s.status = .error) →
      assembleBlob ext inl hnd dyn = assembleBlob [] inl hnd dyn) := by
  constructor
  · intro ext inl hnd dyn
    unfold assembleBlob specSourceBlob
    have hf : ext.filter (fun s => s.status == .loaded)
        = ext.filter (fun s => !(s.status == .pending || s.status == .error)) := by
      apply List.filter_congr
      intro s _
      cases s.status <;> rfl
    rw [hf]
  · intro ext inl hnd dyn hall
    unfold assembleBlob
    have hf : ext.filter (fun s => s.status == .loaded) = [] := by
      rw [List.filter_eq_nil_iff]
      intro s hs
      rcases hall s hs with h | h <;> simp [h]
    rw [hf]
    rfl

/-- Witness for C7 at concrete inputs: one pending and one errored external
unit contribute nothing to the blob. -/
theorem claim7_witness :
    (∀ s ∈ [({ url := "https://cdn.example/a.js", status := .pending, content := none,
               error := none } : ExternalScript),
            { url := "https://cdn.example/b.js", status := .error, content := none,
              error := some "read failed" }],
      s.status = ScriptStatus.pending ∨ s.status = ScriptStatus.error)
    ∧ assembleBlob
        [{ url := "https://cdn.example/a.js", status := .pending, content := none,
           error := none },
         { url := "https://cdn.example/b.js", status := .error, content := none,
           error := some "read failed" }]
        [{ type := "initial-inline", content := "var a = 1;" }]
        [{ tag := "button", event := "onclick", handler := "go()" }]
        [{ type := "eval-generated", content := "evil()" }]
      = assembleBlob []
        [{ type := "initial-inline", content := "var a = 1;" }]
        [{ tag := "button", event := "onclick", handler := "go()" }]
        [{ type := "eval-generated", content := "evil()" }] :=
  ⟨by decide,
    claim7_source_blob_assembly.2
      [{ url := "https://cdn.example/a.js", status := .pending, content := none,
         error := none },
       { url := "https://cdn.example/b.js", status := .error, content := none,
         error := some "read failed" }]
      [{ type := "initial-inline", content := "var a = 1;" }]
      [{ tag := "button", event := "onclick", handler := "go()" }]
      [{ type := "eval-generated", content := "evil()" }]
      (by decide)⟩

/-! ### Snippet truncation and masking (C5) -/

lemma maskRun_length (run : List Char) : (maskRun run).length = run.length := by
  unfold maskRun
  split
  · next h =>
      rw [List.length_append, List.length_take, List.length_replicate]
      omega
  · rfl

lemma anonRuns_length (rest : List Char) :
    ∀ cur : List Char, (anonRuns cur rest).length = cur.length + rest.length := by
  induction rest with
  | nil =>
      intro cur
      show (maskRun cur.reverse).length = cur.length + 0
      rw [maskRun_length, List.length_reverse, Nat.add_zero]
  | cons c cs ih =>
      intro cur
      unfold anonRuns
      split
      · rw [ih (c :: cur)]
        simp only [List.length_cons]
        omega
      · rw [List.length_append, maskRun_length, List.length_reverse, List.length_cons, ih []]
        simp only [List.length_nil, List.length_cons]
        omega

lemma anonymizeMatch_length (s : String) : (anonymizeMatch s).length = s.length := by
  show (anonRuns [] s.data).length = s.data.length
  rw [anonRuns_length]
  simp

lemma truncateSnippet_of_le {text : String} (h : text.length ≤ 40) :
    truncateSnippet text 40 = anonymizeMatch text := by
  unfold truncateSnippet
  rw [if_pos h]

lemma truncateSnippet_of_gt {text : String} (h : 40 < text.length) :
    truncateSnippet text 40 = (⟨text.data.take 40⟩ : String) ++ "..."
    ∧ (truncateSnippet text 40).length = 43 := by
  unfold truncateSnippet
  rw [if_neg (by omega)]
  refine ⟨rfl, ?_⟩
  rw [String.length_append]
  have h40 : ((⟨text.data.take 40⟩ : String)).length = 40 := by
    show (text.data.take 40).length = 40
    rw [List.length_take]
    have : text.data.length = text.length := rfl
    omega
  rw [h40]
  rfl

lemma truncateSnippet_length_le (text : String) : (truncateSnippet text 40).length ≤ 43 := by
  by_cases h : text.length ≤ 40
  · rw [truncateSnippet_of_le h, anonymizeMatch_length]
    omega
  · exact le_of_eq (truncateSnippet_of_gt (by omega)).2

/-- C5 (amended): in a successful response only the insecure-API snippets
are bounded — each equals `truncateSnippet` of its finding match with
budget 40 and so never exceeds 43 characters (40 plus the ellipsis); the
secret snippets are the raw finding matches, emitted without truncation or
masking (and can therefore exceed the budget, see the counterexample). -/
theorem claim5_snippet_truncation (srules arules : List (String × MatchFn))
    (wl : List (String → Bool)) (env : ScanEnv) (ip : String) (now : Int)
    (reqUrl : Option String) (sAt : String) (rm : List (String × Int)) (pool : PoolState)
    (b : Browser) (blob : String)
    (hrate : rateHit rm ip now = false) (hurl : jsFalsy reqUrl = false)
    (hpage : env.newPageOk = true) (hcollect : env.collectResult = .ok blob)
    (hacq : (handler srules arules wl env ip now reqUrl sAt rm pool).acquiredBrowser = some b) :
    ∀ body : ScanResponse,
      (handler srules arules wl env ip now reqUrl sAt rm pool).response = some (.ok body) →
      ((∀ a ∈ body.apiIssues, a.snippet.length ≤ 43
          ∧ ∃ f ∈ (scanForSecurityIssues srules arules wl blob).apiIssues,
              a.snippet = truncateSnippet f.matchStr 40)
        ∧ body.secrets.map (fun s => s.snippet)
          = (scanForSecurityIssues srules arules wl blob).secrets.map (fun f => f.matchStr)) := by
  intro body hresp
  rw [handler_eq_afterAcquire hrate hurl hacq,
    handlerAfterAcquire_ok_response hpage hcollect] at hresp
  have hbody : body
      = { success := true
          secrets := (scanForSecurityIssues srules arules wl blob).secrets.map fun s =>
            { line := s.line, keyType := s.keyType, snippet := s.matchStr,
              context := s.context }
          apiIssues := (scanForSecurityIssues srules arules wl blob).apiIssues.map fun i =>
            { line := i.line, issueType := i.issueType, severity := i.severity,
              snippet := truncateSnippet i.matchStr 40 }
          metadata :=
            { scannedUrl := reqUrl.getD "", scannedAt := sAt,
              totalSecrets := (scanForSecurityIssues srules arules wl blob).secrets.length,
              totalApiIssues :=
                (scanForSecurityIssues srules arules wl blob).apiIssues.length } } := by
    have := hresp.symm
    injection this with h1
    injection h1
  subst hbody
  constructor
  · intro a ha
    rcases List.mem_map.mp ha with ⟨f, hf, rfl⟩
    exact ⟨truncateSnippet_length_le f.matchStr, f, hf, rfl⟩
  · rw [List.map_map]
    rfl

/-- The 51-character OpenAI-style key used to exhibit an untruncated secret
snippet. -/
def openAiLongKey : String := "sk-abcdefghijklmnopqrstuvwxyzABCDEFGHIJKLMNOPQRSTUV"

/-- A one-line blob containing `openAiLongKey`. -/
def openAiKeyLine : String := "const key = \"" ++ openAiLongKey ++ "\";"

/-- Counterexample to C5 as stated: the secret snippet in the response is
the raw 51-character match, exceeding the 40-character budget plus the
3-character ellipsis — secret snippets are not truncated. -/
theorem claim5_counterexample :
    (handler [("OPENAI_API_KEY", jsMatchNonGlobal openAiKeyRE)] [] []
      ⟨true, 0, 100, true, "", "", .ok openAiKeyLine⟩ "8.8.8.8" 0 (some "https://x.example")
      "t" [] poolInit).response
    = some (.ok
        { success := true
          secrets := [{ line := 1, keyType := "OPENAI_API_KEY", snippet := openAiLongKey,
                        context := openAiKeyLine }]
          apiIssues := []
          metadata := { scannedUrl := "https://x.example", scannedAt := "t",
                        totalSecrets := 1, totalApiIssues := 0 } })
    ∧ openAiLongKey.length = 51 ∧ 43 < openAiLongKey.length := by decide

/-- The long plaintext URL used to exhibit API-snippet truncation. -/
def longHttpLine : String :=
  "fetch(http://insecure.example.com?key=aaaaaaaaaaaaaaaaaaaaaaaaaaaaaaaa)"

/-- Witness for C5 at concrete inputs: a long insecure-API match is
truncated to at most 43 characters while the secret snippets equal the raw
matches. -/
theorem claim5_witness :
    ((handler [] [("HTTP_ENDPOINT", jsMatchNonGlobal httpEndpointRE)] []
        ⟨true, 0, 100, true, "", "", .ok longHttpLine⟩ "3.3.3.3" 0 (some "https://y.example")
        "t" [] poolInit).response
      = some (.ok
          { success := true
            secrets := []
            apiIssues := [{ line := 1, issueType := "HTTP_ENDPOINT", severity := "critical",
                            snippet := "http://insecure.example.com?key=aaaaaaaa..." }]
            metadata := { scannedUrl := "https://y.example", scannedAt := "t",
                          totalSecrets := 0, totalApiIssues := 1 } }))
    ∧ (∀ a ∈ [({ line := 1, issueType := "HTTP_ENDPOINT", severity := "critical",
                 snippet := "http://insecure.example.com?key=aaaaaaaa..." } : ApiOut)],
        a.snippet.length ≤ 43
        ∧ ∃ f ∈ (scanForSecurityIssues [] [("HTTP_ENDPOINT", jsMatchNonGlobal httpEndpointRE)]
            [] longHttpLine).apiIssues, a.snippet = truncateSnippet f.matchStr 40) :=
  ⟨by decide,
    (claim5_snippet_truncation [] [("HTTP_ENDPOINT", jsMatchNonGlobal httpEndpointRE)] []
      ⟨true, 0, 100, true, "", "", .ok longHttpLine⟩ "3.3.3.3" 0 (some "https://y.example")
      "t" [] poolInit 0 longHttpLine (by decide) (by decide) (by decide) (by decide)
      (by decide)
      { success := true
        secrets := []
        apiIssues := [{ line := 1, issueType := "HTTP_ENDPOINT", severity := "critical",
                        snippet := "http://insecure.example.com?key=aaaaaaaa..." }]
        metadata := { scannedUrl := "https://y.example", scannedAt := "t",
                      totalSecrets := 0, totalApiIssues := 1 } }
      (by decide)).1⟩

/-! ### Context windows (C6) -/

/-- The 0-based indices of the context window the spec describes for a
finding on 1-based line `L`: `max(0, L-1-2)` through `min(N-1, L-1+2)`
(Nat subtraction is truncated, which is the `max(0, _)` clamp). -/
def contextWindowIndices (lines : List String) (L : Nat) : List Nat :=
  List.range' (L - 1 - 2) (min (lines.length - 1) (L - 1 + 2) + 1 - (L - 1 - 2))

/-- Spec-side description of the context of a finding on 1-based line `L`:
the lines at the window indices, joined by newline. -/
def specContextWindow (lines : List String) (L : Nat) : String :=
  String.intercalate "\n" ((contextWindowIndices lines L).map (fun i => lines.getD i ""))

lemma range'_map_getD (lines : List String) :
    ∀ (k s : Nat), s + k ≤ lines.length →
      (List.range' s k).map (fun i => lines.getD i "") = (lines.drop s).take k := by
  intro k
  induction k with
  | zero => intro s _; simp
  | succ n ih =>
      intro s h
      have hs : s < lines.length := by omega
      rw [show List.range' s (n + 1) = s :: List.range' (s + 1) n from rfl,
        List.map_cons, ih (s + 1) (by omega), List.drop_eq_getElem_cons hs,
        List.take_succ_cons, List.getD_eq_getElem lines "" hs]

lemma getContext_eq_specContextWindow (lines : List String) (l0 : Nat)
    (h : l0 < lines.length) :
    getContext lines l0 2 = specContextWindow lines (l0 + 1) := by
  unfold getContext specContextWindow contextWindowIndices
  have h1 : l0 + 1 - 1 - 2 = l0 - 2 := by omega
  have h2 : l0 + 1 - 1 + 2 = l0 + 2 := by omega
  rw [h1, h2, range'_map_getD lines _ _ (by omega)]

lemma scanSecretsAux_line_context (srules : List (String × MatchFn))
    (wl : List (String → Bool)) (allLines : List String) :
    ∀ (ls : List String) (i : Nat), i + ls.length = allLines.length →
      ∀ f ∈ scanSecretsAux srules wl allLines i ls,
        1 ≤ f.line ∧ f.line ≤ allLines.length
        ∧ f.context = getContext allLines (f.line - 1) 2 := by
  intro ls
  induction ls with
  | nil =>
      intro i _ f hf
      simp [scanSecretsAux] at hf
  | cons line rest ih =>
      intro i h f hf
      rw [show scanSecretsAux srules wl allLines i (line :: rest)
          = (srules.flatMap fun rule =>
              ((rule.2 line).filter (fun m => !(wl.any fun w => w m))).map fun m =>
                { line := i + 1, keyType := rule.1, matchStr := m,
                  context := getContext allLines i 2 })
            ++ scanSecretsAux srules wl allLines (i + 1) rest from rfl] at hf
      rcases List.mem_append.mp hf with hf | hf
      · rcases List.mem_flatMap.mp hf with ⟨rule, _, hf⟩
        rcases List.mem_map.mp hf with ⟨m, _, rfl⟩
        have hlen : i + 1 ≤ allLines.length := by
          simp only [List.length_cons] at h
          omega
        refine ⟨?_, hlen, ?_⟩
        · show 1 ≤ i + 1
          omega
        · show getContext allLines i 2 = getContext allLines (i + 1 - 1) 2
          rfl
      · refine ih (i + 1) ?_ f hf
        simp only [List.length_cons] at h
        omega

lemma scanApiAux_line_context (arules : List (String × MatchFn)) (allLines : List String) :
    ∀ (ls : List String) (i : Nat), i + ls.length = allLines.length →
      ∀ f ∈ scanApiAux arules allLines i ls,
        1 ≤ f.line ∧ f.line ≤ allLines.length
        ∧ f.context = getContext allLines (f.line - 1) 2 := by
  intro ls
  induction ls with
  | nil =>
      intro i _ f hf
      simp [scanApiAux] at hf
  | cons line rest ih =>
      intro i h f hf
      rw [show scanApiAux arules allLines i (line :: rest)
          = (arules.flatMap fun rule =>
              (rule.2 line).map fun m =>
                { line := i + 1, issueType := rule.1, matchStr := m,
                  context := getContext allLines i 2,
                  severity := getApiIssueSeverity rule.1 })
            ++ scanApiAux arules allLines (i + 1) rest from rfl] at hf
      rcases List.mem_append.mp hf with hf | hf
      · rcases List.mem_flatMap.mp hf with ⟨rule, _, hf⟩
        rcases List.mem_map.mp hf with ⟨m, _, rfl⟩
        have hlen : i + 1 ≤ allLines.length := by
          simp only [List.length_cons] at h
          omega
        refine ⟨?_, hlen, ?_⟩
        · show 1 ≤ i + 1
          omega
        · show getContext allLines i 2 = getContext allLines (i + 1 - 1) 2
          rfl
      · refine ih (i + 1) ?_ f hf
        simp only [List.length_cons] at h
        omega

/-- C6: every finding (secret or insecure-API) carries a 1-based line
number within the blob, its context is exactly the spec-side ±2-line
window around that line clipped at the blob boundaries, and every index of
that window is in range. -/
theorem claim6_context_window :
    (∀ (srules : List (String × MatchFn)) (wl : List (String → Bool)) (content : String),
      ∀ f ∈ scanForSecrets srules wl content,
        1 ≤ f.line ∧ f.line ≤ (jsSplitNewline content).length
        ∧ f.context = specContextWindow (jsSplitNewline content) f.line)
    ∧ (∀ (srules arules : List (String × MatchFn)) (wl : List (String → Bool))
        (content : String),
      ∀ f ∈ (scanForSecurityIssues srules arules wl content).apiIssues,
        1 ≤ f.line ∧ f.line ≤ (jsSplitNewline content).length
        ∧ f.context = specContextWindow (jsSplitNewline content) f.line)
    ∧ (∀ (lines : List String) (L : Nat), 1 ≤ L → L - 1 < lines.length →
        ∀ i ∈ contextWindowIndices lines L, i < lines.length) := by
  refine ⟨?_, ?_, ?_⟩
  · intro srules wl content f hf
    have hmem := scanSecretsAux_line_context srules wl (jsSplitNewline content)
      (jsSplitNewline content) 0 (by omega) f hf
    obtain ⟨h1, h2, h3⟩ := hmem
    refine ⟨h1, h2, ?_⟩
    rw [h3, getContext_eq_specContextWindow _ _ (by omega),
      show f.line - 1 + 1 = f.line from by omega]
  · intro srules arules wl content f hf
    have hmem := scanApiAux_line_context arules (jsSplitNewline content)
      (jsSplitNewline content) 0 (by omega) f hf
    obtain ⟨h1, h2, h3⟩ := hmem
    refine ⟨h1, h2, ?_⟩
    rw [h3, getContext_eq_specContextWindow _ _ (by omega),
      show f.line - 1 + 1 = f.line from by omega]
  · intro lines L h1 h2 i hi
    have := List.mem_range'_1.mp hi
    omega

/-- The four-line blob used to exhibit a clipped context window. -/
def fourLineBlob : String := "l1\nAKIA0123456789ABCDEF\nl3\nl4"

/-- The finding produced on line 2 of `fourLineBlob`. -/
def contextFinding : SecretFinding :=
  { line := 2, keyType := "AWS_ACCESS_KEY", matchStr := "AKIA0123456789ABCDEF",
    context := "l1\nAKIA0123456789ABCDEF\nl3\nl4" }

/-- Witness for C6 at concrete inputs: the finding on line 2 of a four-line
blob has the window of lines 1 through 4 (0-based 0 through 3). -/
theorem claim6_witness :
    contextFinding
      ∈ scanForSecrets [("AWS_ACCESS_KEY", jsMatchNonGlobal awsAccessKeyRE)] [] fourLineBlob
    ∧ (1 ≤ contextFinding.line
      ∧ contextFinding.line ≤ (jsSplitNewline fourLineBlob).length
      ∧ contextFinding.context = specContextWindow (jsSplitNewline fourLineBlob)
          contextFinding.line) :=
  ⟨by decide,
    claim6_context_window.1 [("AWS_ACCESS_KEY", jsMatchNonGlobal awsAccessKeyRE)] []
      fourLineBlob contextFinding (by decide)⟩

/-! ### Per-pair match reporting (C1) -/

lemma flatMap_filter_nil {α β : Type} (l : List α) (body : α → List β) (p : β → Bool)
    (h : ∀ a ∈ l, ∀ x ∈ body a, p x = false) : (l.flatMap body).filter p = [] := by
  apply List.filter_eq_nil_iff.mpr
  intro x hx
  rcases List.mem_flatMap.mp hx with ⟨a, ha, hxa⟩
  simp [h a ha x hxa]

/-- Filtering the per-rule blocks of one line for the rule named `r`
keeps exactly the block of the unique rule with that name. -/
lemma rules_flatMap_filter {β : Type} (rules : List (String × MatchFn))
    (body : (String × MatchFn) → List β) (p : β → Bool) (r : String) (mf : MatchFn)
    (hmem : (r, mf) ∈ rules) (hnd : (rules.map Prod.fst).Nodup)
    (htrue : ∀ x ∈ body (r, mf), p x = true)
    (hfalse : ∀ rule : String × MatchFn, rule.1 ≠ r → ∀ x ∈ body rule, p x = false) :
    (rules.flatMap body).filter p = body (r, mf) := by
  induction rules with
  | nil => cases hmem
  | cons rule rest ih =>
      rw [List.flatMap_cons, List.filter_append]
      have hnd' := List.nodup_cons.mp (show (rule.1 :: rest.map Prod.fst).Nodup from hnd)
      rcases List.mem_cons.mp hmem with heq | hmem'
      · subst heq
        rw [List.filter_eq_self.mpr (by intro x hx; simp [htrue x hx])]
        have hrest : (rest.flatMap body).filter p = [] := by
          apply flatMap_filter_nil
          intro a ha x hx
          refine hfalse a ?_ x hx
          intro hcontr
          have hmm : a.1 ∈ rest.map Prod.fst := List.mem_map_of_mem Prod.fst ha
          rw [hcontr] at hmm
          exact hnd'.1 hmm
        rw [hrest, List.append_nil]
      · have hrne : rule.1 ≠ r := by
          intro hcontr
          have hmm : r ∈ rest.map Prod.fst := List.mem_map_of_mem Prod.fst hmem'
          rw [← hcontr] at hmm
          exact hnd'.1 hmm
        rw [List.filter_eq_nil_iff.mpr (by intro x hx; simp [hfalse rule hrne x hx]),
          List.nil_append]
        exact ih hmem' hnd'.2

lemma scanSecretsAux_filter (srules : List (String × MatchFn)) (wl : List (String → Bool))
    (allLines : List String) (r : String) (mf : MatchFn)
    (hmem : (r, mf) ∈ srules) (hnd : (srules.map Prod.fst).Nodup) :
    ∀ (ls : List String) (i l0 : Nat),
      (scanSecretsAux srules wl allLines i ls).filter
          (fun f => f.keyType == r && f.line == l0 + 1)
        = if i ≤ l0 ∧ l0 - i < ls.length then
            ((mf (ls.getD (l0 - i) "")).filter (fun m => !(wl.any fun w => w m))).map fun m =>
              ({ line := l0 + 1, keyType := r, matchStr := m,
                 context := getContext allLines l0 2 } : SecretFinding)
          else [] := by
  intro ls
  induction ls with
  | nil =>
      intro i l0
      rw [if_neg (by simp)]
      simp [scanSecretsAux]
  | cons line rest ih =>
      intro i l0
      rw [show scanSecretsAux srules wl allLines i (line :: rest)
          = (srules.flatMap fun rule =>
              ((rule.2 line).filter (fun m => !(wl.any fun w => w m))).map fun m =>
                { line := i + 1, keyType := rule.1, matchStr := m,
                  context := getContext allLines i 2 })
            ++ scanSecretsAux srules wl allLines (i + 1) rest from rfl,
        List.filter_append]
      by_cases hi : i = l0
      · subst hi
        rw [rules_flatMap_filter srules _ _ r mf hmem hnd ?htrue ?hfalse]
        case htrue =>
          intro x hx
          rcases List.mem_map.mp hx with ⟨m, _, rfl⟩
          simp
        case hfalse =>
          intro rule hrne x hx
          rcases List.mem_map.mp hx with ⟨m, _, rfl⟩
          simp [hrne]
        rw [ih (i + 1) i, if_neg (by omega), List.append_nil,
          if_pos ⟨Nat.le_refl i, by simp⟩, Nat.sub_self, List.getD_cons_zero]
      · rw [flatMap_filter_nil _ _ _ ?hkill, List.nil_append, ih (i + 1) l0]
        case hkill =>
          intro rule _ x hx
          rcases List.mem_map.mp hx with ⟨m, _, rfl⟩
          have : (i + 1 == l0 + 1) = false := by
            simp
            omega
          simp [this]
        by_cases hcond : i + 1 ≤ l0 ∧ l0 - (i + 1) < rest.length
        · have hgetD : rest.getD (l0 - (i + 1)) "" = (line :: rest).getD (l0 - i) "" := by
            have h1 : l0 - i = (l0 - (i + 1)) + 1 := by omega
            rw [h1, List.getD_cons_succ]
          rw [if_pos hcond, if_pos (by simp only [List.length_cons]; omega), hgetD]
        · rw [if_neg hcond,
            if_neg (by
              simp only [List.length_cons]
              intro hc
              exact hcond ⟨by omega, by omega⟩)]

lemma scanApiAux_filter (arules : List (String × MatchFn)) (allLines : List String)
    (r : String) (mf : MatchFn)
    (hmem : (r, mf) ∈ arules) (hnd : (arules.map Prod.fst).Nodup) :
    ∀ (ls : List String) (i l0 : Nat),
      (scanApiAux arules allLines i ls).filter
          (fun f => f.issueType == r && f.line == l0 + 1)
        = if i ≤ l0 ∧ l0 - i < ls.length then
            (mf (ls.getD (l0 - i) "")).map fun m =>
              ({ line := l0 + 1, issueType := r, matchStr := m,
                 context := getContext allLines l0 2,
                 severity := getApiIssueSeverity r } : ApiFinding)
          else [] := by
  intro ls
  induction ls with
  | nil =>
      intro i l0
      rw [if_neg (by simp)]
      simp [scanApiAux]
  | cons line rest ih =>
      intro i l0
      rw [show scanApiAux arules allLines i (line :: rest)
          = (arules.flatMap fun rule =>
              (rule.2 line).map fun m =>
                { line := i + 1, issueType := rule.1, matchStr := m,
                  context := getContext allLines i 2,
                  severity := getApiIssueSeverity rule.1 })
            ++ scanApiAux arules allLines (i + 1) rest from rfl,
        List.filter_append]
      by_cases hi : i = l0
      · subst hi
        rw [rules_flatMap_filter arules _ _ r mf hmem hnd ?htrue ?hfalse]
        case htrue =>
          intro x hx
          rcases List.mem_map.mp hx with ⟨m, _, rfl⟩
          simp
        case hfalse =>
          intro rule hrne x hx
          rcases List.mem_map.mp hx with ⟨m, _, rfl⟩
          simp [hrne]
        rw [ih (i + 1) i, if_neg (by omega), List.append_nil,
          if_pos ⟨Nat.le_refl i, by simp⟩, Nat.sub_self, List.getD_cons_zero]
      · rw [flatMap_filter_nil _ _ _ ?hkill, List.nil_append, ih (i + 1) l0]
        case hkill =>
          intro rule _ x hx
          rcases List.mem_map.mp hx with ⟨m, _, rfl⟩
          have : (i + 1 == l0 + 1) = false := by
            simp
            omega
          simp [this]
        by_cases hcond : i + 1 ≤ l0 ∧ l0 - (i + 1) < rest.length
        · have hgetD : rest.getD (l0 - (i + 1)) "" = (line :: rest).getD (l0 - i) "" := by
            have h1 : l0 - i = (l0 - (i + 1)) + 1 := by omega
            rw [h1, List.getD_cons_succ]
          rw [if_pos hcond, if_pos (by simp only [List.length_cons]; omega), hgetD]
        · rw [if_neg hcond,
            if_neg (by
              simp only [List.length_cons]
              intro hc
              exact hcond ⟨by omega, by omega⟩)]

/-- C1 (amended): for every blob line (1-based `l0 + 1`) and every rule of
the catalog (uniquely named), the matches the scanner emits for that
(line, rule) pair are exactly the elements of `line.match(pattern) || []`
under the non-global semantics the patterns actually carry — the leftmost
match followed by its capture-group values — with the whitelist filter
applied for secret rules; not the set of all non-overlapping occurrences
(see the counterexample). -/
theorem claim1_per_pair_reporting :
    (∀ (srules : List (String × MatchFn)) (wl : List (String → Bool)) (content : String)
        (r : String) (mf : MatchFn) (l0 : Nat),
      (r, mf) ∈ srules → (srules.map Prod.fst).Nodup →
      l0 < (jsSplitNewline content).length →
      ((scanForSecrets srules wl content).filter
          (fun f => f.keyType == r && f.line == l0 + 1)).map (fun f => f.matchStr)
        = (mf ((jsSplitNewline content).getD l0 "")).filter
            (fun m => !(wl.any fun w => w m)))
    ∧ (∀ (srules arules : List (String × MatchFn)) (wl : List (String → Bool))
        (content : String) (r : String) (mf : MatchFn) (l0 : Nat),
      (r, mf) ∈ arules → (arules.map Prod.fst).Nodup →
      l0 < (jsSplitNewline content).length →
      ((scanForSecurityIssues srules arules wl content).apiIssues.filter
          (fun f => f.issueType == r && f.line == l0 + 1)).map (fun f => f.matchStr)
        = mf ((jsSplitNewline content).getD l0 "")) := by
  constructor
  · intro srules wl content r mf l0 hmem hnd hlen
    show ((scanSecretsAux srules wl (jsSplitNewline content) 0
        (jsSplitNewline content)).filter
        (fun f => f.keyType == r && f.line == l0 + 1)).map (fun f => f.matchStr)
      = _
    rw [scanSecretsAux_filter srules wl (jsSplitNewline content) r mf hmem hnd
        (jsSplitNewline content) 0 l0,
      if_pos ⟨Nat.zero_le l0, by omega⟩, List.map_map]
    exact List.map_id _
  · intro srules arules wl content r mf l0 hmem hnd hlen
    show ((scanApiAux arules (jsSplitNewline content) 0 (jsSplitNewline content)).filter
        (fun f => f.issueType == r && f.line == l0 + 1)).map (fun f => f.matchStr)
      = _
    rw [scanApiAux_filter arules (jsSplitNewline content) r mf hmem hnd
        (jsSplitNewline content) 0 l0,
      if_pos ⟨Nat.zero_le l0, by omega⟩, List.map_map]
    exact List.map_id _

/-- A line holding two distinct AWS access key occurrences. -/
def twoAkiaLine : String := "AKIA0123456789ABCDEF and AKIAABCDEFGHIJ012345"

/-- A line holding one Stripe key (whose pattern has the capturing group
`(test|live)`). -/
def stripeLine : String := "sk_test_abcdefghijklmnopqrstuvwx"

/-- Counterexample to C1 as stated: on a line with two non-overlapping AWS
access keys the scanner emits one finding, not two (the patterns carry no
global flag, so only the leftmost match is collected); and on a Stripe key
line the capture-group text "test" is emitted as an extra finding even
though it is not an occurrence of the pattern. -/
theorem claim1_counterexample :
    ((scanForSecrets [("AWS_ACCESS_KEY", jsMatchNonGlobal awsAccessKeyRE)] []
        twoAkiaLine).map (fun f => f.matchStr) = ["AKIA0123456789ABCDEF"])
    ∧ jsMatchAll awsAccessKeyRE twoAkiaLine
        = ["AKIA0123456789ABCDEF", "AKIAABCDEFGHIJ012345"]
    ∧ ((scanForSecrets [("STRIPE_KEY", jsMatchNonGlobal stripeKeyRE)] [] stripeLine).map
        (fun f => f.matchStr) = ["sk_test_abcdefghijklmnopqrstuvwx", "test"])
    ∧ jsMatchAll stripeKeyRE stripeLine = ["sk_test_abcdefghijklmnopqrstuvwx"] := by decide

/-- Witness for C1 at concrete inputs: the findings the scanner emits for
the pair (line 2, AWS_ACCESS_KEY) are exactly the non-global match of that
rule on that line. -/
theorem claim1_witness :
    ((("AWS_ACCESS_KEY", jsMatchNonGlobal awsAccessKeyRE)
        ∈ [("AWS_ACCESS_KEY", jsMatchNonGlobal awsAccessKeyRE),
           ("OPENAI_API_KEY", jsMatchNonGlobal openAiKeyRE)])
      ∧ (([("AWS_ACCESS_KEY", jsMatchNonGlobal awsAccessKeyRE),
           ("OPENAI_API_KEY", jsMatchNonGlobal openAiKeyRE)].map Prod.fst).Nodup)
      ∧ 1 < (jsSplitNewline fourLineBlob).length)
    ∧ ((scanForSecrets [("AWS_ACCESS_KEY", jsMatchNonGlobal awsAccessKeyRE),
          ("OPENAI_API_KEY", jsMatchNonGlobal openAiKeyRE)] [] fourLineBlob).filter
        (fun f => f.keyType == "AWS_ACCESS_KEY" && f.line == 1 + 1)).map (fun f => f.matchStr)
      = (jsMatchNonGlobal awsAccessKeyRE ((jsSplitNewline fourLineBlob).getD 1 "")).filter
          (fun m => !(([] : List (String → Bool)).any fun w => w m)) :=
  ⟨⟨List.mem_cons_self _ _, by decide, by decide⟩,
    claim1_per_pair_reporting.1
      [("AWS_ACCESS_KEY", jsMatchNonGlobal awsAccessKeyRE),
       ("OPENAI_API_KEY", jsMatchNonGlobal openAiKeyRE)] [] fourLineBlob
      "AWS_ACCESS_KEY" (jsMatchNonGlobal awsAccessKeyRE) 1
      (List.mem_cons_self _ _) (by decide) (by decide)⟩

end CrackAble
